import Mathlib

/-!
Shallow embedding of the GnuFlag command-line option parser
(src/gnuflag.h, src/unnamed/part_000).

The caller-owned target variables that the C++ `Value` setters mutate
through captured pointers are modelled by an explicit state type `σ`
threaded through every setter.  Diagnostics written to `std::cerr` are
modelled as a `List String` accumulated alongside the state.  The
setters in the source consult only `opt->name` of the `CommandOption`
they receive, so the embedded setter receives that name.
-/

namespace GnuFlag

/-- Models `GnuFlag::Exception` (src/unnamed/part_000 lines 301-307). -/
structure Exception where
  what : String
deriving DecidableEq

/-- Models `GnuFlag::Value` (src/gnuflag.h lines 17-33).  `_wasSet`
starts `false`; `_defaultVal` is a pure closure over a captured
default, so it is embedded as the `Option String` it returns; the
setter returns its `bool` outcome together with the updated caller
state and the diagnostics it printed. -/
structure Value (σ : Type) where
  wasSet : Bool
  defaultVal : Option String
  setter : Option String → Option String → σ → Bool × σ × List String
  argHint : String

/-- Models `GnuFlag::CommandOption` (src/gnuflag.h lines 67-83).
The nullable `const char *name` and the `char shortName` (0 = none)
become `Option`s. -/
structure CommandOption (σ : Type) where
  name : Option String
  shortName : Option Char
  flags : Nat
  value : Value σ
  help : String

namespace CommandOption

/-- `CommandOption::NoArgument` (src/gnuflag.h line 70). -/
def NoArgument : Nat := 0

/-- `CommandOption::RequiredArgument` (src/gnuflag.h line 71). -/
def RequiredArgument : Nat := 1

/-- `CommandOption::OptionalArgument` (src/gnuflag.h line 72). -/
def OptionalArgument : Nat := 2

/-- `CommandOption::ArgumentTypeMask` (src/gnuflag.h line 73). -/
def ArgumentTypeMask : Nat := 15

/-- `CommandOption::Repeatable` (src/gnuflag.h line 75). -/
def Repeatable : Nat := 16

end CommandOption

/-- Models `GnuFlag::CommandGroup` (src/gnuflag.h lines 85-89). -/
structure CommandGroup (σ : Type) where
  name : String
  options : List (CommandOption σ)

/-- Models `Value::set` (src/unnamed/part_000 lines 77-95): fail when
already set and not `Repeatable`; mark `_wasSet = true`; with no
argument on an `OptionalArgument` option consult the default-value
provider; otherwise call the setter when an argument is present or the
option takes none; any other combination returns false. -/
def Value.set {σ : Type} (v : Value σ) (opt : CommandOption σ) (arg : Option String)
    (s : σ) : Bool × Value σ × σ × List String :=
  if v.wasSet = true ∧ opt.flags &&& CommandOption.Repeatable = 0 then
    (false, v, s, ["Option " ++ opt.name.getD "" ++ " can only be used once"])
  else
    let v2 : Value σ := { v with wasSet := true }
    if arg = none ∧ opt.flags &&& CommandOption.OptionalArgument ≠ 0 then
      match v2.defaultVal with
      | none => (false, v2, s, [])
      | some d =>
        let r := v2.setter opt.name (some d) s
        (r.1, v2, r.2.1, r.2.2)
    else if arg.isSome = true ∨
        (arg = none ∧ opt.flags &&& CommandOption.ArgumentTypeMask = CommandOption.NoArgument) then
      let r := v2.setter opt.name arg s
      (r.1, v2, r.2.1, r.2.2)
    else
      (false, v2, s, [])

/-- Models `Value::defaultValue` (src/unnamed/part_000 lines 101-104). -/
def Value.defaultValue {σ : Type} (v : Value σ) : Option String :=
  v.defaultVal

/-- Models `GnuFlag::StringType` (src/unnamed/part_000 lines 118-132):
the setter copies a present argument into the target (here: `setT`)
and returns whether an argument was present. -/
def StringType {σ : Type} (setT : String → σ → σ) (defValue : Option String)
    (hint : String) : Value σ :=
  { wasSet := false
    defaultVal := defValue
    setter := fun _ arg s =>
      match arg with
      | some v => (true, setT v s, [])
      | none => (false, s, [])
    argHint := hint }

/-- Error outcomes of `std::stoi`. -/
inductive StoiError where
  | invalidArgument
  | outOfRange
deriving DecidableEq

/-- Lower bound of the C++ `int` range. -/
def intMin : Int := -2147483648

/-- Upper bound of the C++ `int` range. -/
def intMax : Int := 2147483647

/-- Whitespace as recognised by the `std::stoi` prefix scan. -/
def isSpaceChar (c : Char) : Bool :=
  c = ' ' || c = '\t' || c = '\n' || c = '\x0b' || c = '\x0c' || c = '\x0d'

/-- Models `std::stoi(s)` (base 10) as used by the `IntType` setter
(src/unnamed/part_000 line 151): skip leading whitespace, accept an
optional sign, read a nonempty digit prefix (trailing characters are
ignored), and fail with `out_of_range` outside the `int` range or
`invalid_argument` when no digits are found. -/
def stoi (s : String) : Except StoiError Int :=
  let cs := s.data.dropWhile isSpaceChar
  let sign : Int := if cs.head? = some '-' then -1 else 1
  let cs2 := if cs.head? = some '-' ∨ cs.head? = some '+' then cs.drop 1 else cs
  let digits := cs2.takeWhile Char.isDigit
  if digits.isEmpty then
    Except.error StoiError.invalidArgument
  else
    let mag : Nat := digits.foldl (fun a c => a * 10 + (c.toNat - 48)) 0
    let v : Int := sign * (mag : Int)
    if v < intMin ∨ intMax < v then Except.error StoiError.outOfRange
    else Except.ok v

/-- Models `GnuFlag::IntType` (src/unnamed/part_000 lines 137-166):
the default is rendered with `std::to_string`; the setter requires an
argument, parses it with `std::stoi`, stores the result on success and
reports a diagnostic (leaving the target untouched) on
`invalid_argument` or `out_of_range`. -/
def IntType {σ : Type} (setT : Int → σ → σ) (defValue : Option Int) : Value σ :=
  { wasSet := false
    defaultVal := defValue.map (fun n => toString n)
    setter := fun name arg s =>
      match arg with
      | none => (false, s, [])
      | some str =>
        match stoi str with
        | Except.ok n => (true, setT n s, [])
        | Except.error StoiError.invalidArgument =>
            (false, s, ["Argument: " ++ name.getD "" ++ " is invalid."])
        | Except.error StoiError.outOfRange =>
            (false, s, ["Argument: " ++ name.getD "" ++ " is out of range."])
    argHint := "NUMBER" }

/-- Models `GnuFlag::StoreFlag` (src/gnuflag.h lines 52-55). -/
inductive StoreFlag where
  | StoreFalse
  | StoreTrue
deriving DecidableEq

/-- Models `GnuFlag::BoolType` (src/unnamed/part_000 lines 172-184):
the setter ignores the argument, stores the `StoreTrue`/`StoreFalse`
policy into the target and always succeeds; `defVal` only feeds the
help text. -/
def BoolType {σ : Type} (setT : Bool → σ → σ) (store : StoreFlag)
    (defVal : Option Bool) : Value σ :=
  { wasSet := false
    defaultVal := defVal.map (fun b => if b then "true" else "false")
    setter := fun _ _ s => (true, setT (decide (store = StoreFlag.StoreTrue)) s, [])
    argHint := "" }

/-- Models `GnuFlag::StringContainerType` (src/gnuflag.h lines 38-49):
no default value; the setter requires an argument and appends it to
the target sequence. -/
def StringContainerType {σ : Type} (getT : σ → List String)
    (setT : List String → σ → σ) (hint : String) : Value σ :=
  { wasSet := false
    defaultVal := none
    setter := fun _ arg s =>
      match arg with
      | none => (false, s, [])
      | some v => (true, setT (getT s ++ [v]) s, [])
    argHint := hint }

/-- One entry of the `std::vector<struct option>` built by
`appendToLongOptions` (src/unnamed/part_000 lines 32-50).  Only the
`name` and `has_arg` members are used (`flag` and `val` are always 0);
`has_arg := none` records that the `switch` left the local `int
has_arg` uninitialized (no `default` case), which the source then
stores into the entry. -/
structure LongOption where
  name : String
  has_arg : Option Nat
deriving DecidableEq

/-- The `switch` of `appendToLongOptions` (src/unnamed/part_000 lines
35-45) mapping `flags & ArgumentTypeMask` to the getopt `has_arg` field
(`no_argument` = 0, `required_argument` = 1, `optional_argument` = 2).
Any other mask value leaves `has_arg` uninitialized, modelled as
`none`. -/
def hasArgFor (flags : Nat) : Option Nat :=
  if flags &&& CommandOption.ArgumentTypeMask = CommandOption.NoArgument then some 0
  else if flags &&& CommandOption.ArgumentTypeMask = CommandOption.RequiredArgument then some 1
  else if flags &&& CommandOption.ArgumentTypeMask = CommandOption.OptionalArgument then some 2
  else none

/-- The piece `appendToOptString` (src/unnamed/part_000 lines 14-30)
adds to the getopt short-option string for one option: the short
character, followed by `:` for `RequiredArgument`, `::` for
`OptionalArgument`, nothing for `NoArgument` or any other mask. -/
def optstringEntry (c : Char) (flags : Nat) : String :=
  String.mk [c] ++
    (if flags &&& CommandOption.ArgumentTypeMask = CommandOption.RequiredArgument then ":"
     else if flags &&& CommandOption.ArgumentTypeMask = CommandOption.OptionalArgument then "::"
     else "")

/-- The flattened, indexed option registry built by `parseCLI`
(src/unnamed/part_000 lines 195-234) before scanning starts.  The
`std::map` indices are embedded as association lists whose inserts
fail on a present key, matching `std::map::insert`. -/
structure Registry (σ : Type) where
  allOpts : List (CommandOption σ)
  longOptIndex : List (String × Nat)
  shortOptIndex : List (Char × Nat)
  shortopts : String
  longopts : List LongOption

/-- The keys of the long-name index. -/
def longKeys {σ : Type} (reg : Registry σ) : List String :=
  reg.longOptIndex.map Prod.fst

/-- The keys of the short-name index. -/
def shortKeys {σ : Type} (reg : Registry σ) : List Char :=
  reg.shortOptIndex.map Prod.fst

/-- The conflicting-arity condition rejected by the registry loop
(src/unnamed/part_000 line 212): both `RequiredArgument` and
`OptionalArgument` bits set. -/
def conflictFlags (flags : Nat) : Prop :=
  flags &&& CommandOption.RequiredArgument ≠ 0 ∧
    flags &&& CommandOption.OptionalArgument ≠ 0

instance (flags : Nat) : Decidable (conflictFlags flags) :=
  instDecidableAnd

/-- The long-name half of the per-option registry step
(src/unnamed/part_000 lines 216-221): on a present long name, fail on
a duplicate key (`std::map::insert` returns false), else record the
index and append the `appendToLongOptions` entry. -/
def registerLong {σ : Type} (opt : CommandOption σ) (reg : Registry σ) :
    Except Exception (Registry σ) :=
  match opt.name with
  | none => Except.ok reg
  | some n =>
    if n ∈ longKeys reg then
      Except.error { what := "Duplicate long option <insertnamehere>" }
    else
      Except.ok { reg with
        longOptIndex := reg.longOptIndex ++ [(n, reg.allOpts.length - 1)]
        longopts := reg.longopts ++ [{ name := n, has_arg := hasArgFor opt.flags }] }

/-- The short-name half of the per-option registry step
(src/unnamed/part_000 lines 223-228): on a present short name, fail on
a duplicate key, else record the index and extend the short-option
string via `appendToOptString`. -/
def registerShort {σ : Type} (opt : CommandOption σ) (reg : Registry σ) :
    Except Exception (Registry σ) :=
  match opt.shortName with
  | none => Except.ok reg
  | some c =>
    if c ∈ shortKeys reg then
      Except.error { what := "Duplicate short option <insertnamehere>" }
    else
      Except.ok { reg with
        shortOptIndex := reg.shortOptIndex ++ [(c, reg.allOpts.length - 1)]
        shortopts := reg.shortopts ++ optstringEntry c opt.flags }

/-- One iteration of the registry-construction loop body
(src/unnamed/part_000 lines 207-230): push the option onto `allOpts`,
reject conflicting arity flags, then handle long and short names. -/
def registerOption {σ : Type} (opt : CommandOption σ) (reg : Registry σ) :
    Except Exception (Registry σ) :=
  if conflictFlags opt.flags then
    Except.error { what := "Argument can either be Required or Optional" }
  else
    match registerLong opt { reg with allOpts := reg.allOpts ++ [opt] } with
    | Except.error e => Except.error e
    | Except.ok reg2 => registerShort opt reg2

/-- The registry-construction loop over the flattened option sequence. -/
def buildRegistryAux {σ : Type} :
    List (CommandOption σ) → Registry σ → Except Exception (Registry σ)
  | [], reg => Except.ok reg
  | opt :: rest, reg =>
    match registerOption opt reg with
    | Except.error e => Except.error e
    | Except.ok reg2 => buildRegistryAux rest reg2

/-- The options of all groups flattened in order, exactly the sequence
the double loop of `parseCLI` (src/unnamed/part_000 lines 206-231)
visits. -/
def flattenGroups {σ : Type} (groups : List (CommandGroup σ)) : List (CommandOption σ) :=
  (groups.map CommandGroup.options).flatten

/-- The empty registry `parseCLI` starts from: short-option string
`"+:"` (no permutation; `:` reported for a missing argument), empty
index maps (src/unnamed/part_000 lines 195-204). -/
def emptyRegistry (σ : Type) : Registry σ :=
  { allOpts := [], longOptIndex := [], shortOptIndex := [], shortopts := "+:", longopts := [] }

/-- Registry construction (src/unnamed/part_000 lines 195-234). -/
def buildRegistry {σ : Type} (groups : List (CommandGroup σ)) :
    Except Exception (Registry σ) :=
  buildRegistryAux (flattenGroups groups) (emptyRegistry σ)

/-- Projects the long-option array out of a registry-construction
result (for stating facts about `has_arg` without comparing the
function-valued parts of a `Registry`). -/
def registryLongopts {σ : Type} : Except Exception (Registry σ) → Option (List LongOption)
  | Except.ok r => some r.longopts
  | Except.error _ => none

/-- The scan-position state of the tokenizer: `optind` is the index of
the next `argv` element to examine (`argv.get 0` is the program name,
so scanning starts at 1 — the source resets `optind = 0`, which makes
getopt reinitialize and scan from index 1); `nextchar` is the position
inside a short-option cluster (0 = not inside a cluster). -/
structure GetoptState where
  optind : Nat
  nextchar : Nat
deriving DecidableEq

/-- One outcome of a tokenizer step, as consumed by the `switch` in
`parseCLI` (src/unnamed/part_000 lines 248-296): `done` is getopt
returning -1; `unknownOpt` is `?` (with the text `parseCLI` would
print); `missingArg` is `:`; `shortOpt` carries the option character
and `optarg`; `longOpt` carries the index into the long-option array
(`option_index`) and `optarg`. -/
inductive GetoptRes where
  | done
  | unknownOpt (display : String)
  | missingArg (display : String)
  | shortOpt (c : Char) (optarg : Option String)
  | longOpt (idx : Nat) (optarg : Option String)

/-- True when an `argv` element looks like an option: at least two
characters and a leading dash (the tokenizer treats `""`, `"-"` and
dashless tokens as positional). -/
def isOptionToken (t : String) : Bool :=
  match t.data with
  | c :: _ :: _ => c == '-'
  | _ => false

/-- How many `:` markers follow an option character in the
short-option string (0 = no argument, 1 = required, 2 = optional). -/
def colonCount : List Char → Nat
  | ':' :: ':' :: _ => 2
  | ':' :: _ => 1
  | _ => 0

/-- Finds a character in the short-option string and returns its arity
marker count. -/
def findShort (c : Char) : List Char → Option Nat
  | [] => none
  | x :: rest => if x = c then some (colonCount rest) else findShort c rest

/-- Modelled from the spec: the short-option lookup of the POSIX
getopt tokenizer (`getopt_long` from libc, not part of this
repository).  The leading ordering flag `+`/`-` of the option string
is skipped and `:` never names an option. -/
def shortoptArity (shortopts : String) (c : Char) : Option Nat :=
  if c = ':' then none
  else
    match shortopts.data with
    | '+' :: rest => findShort c rest
    | '-' :: rest => findShort c rest
    | cs => findShort c cs

/-- Index of a long option by exact name in the long-option array. -/
def findLongIndex (longopts : List LongOption) (n : String) : Option Nat :=
  longopts.findIdx? (fun lo => lo.name == n)

/-- Modelled from the spec: the long-option step of the POSIX getopt
tokenizer (`getopt_long` from libc, not part of this repository), per
the syntax contract of the spec: `--long`, `--long=VALUE`, and `--long
VALUE` for a required argument only; an optional argument must use the
attached `=` form.  An argument attached to a no-argument option and
an unknown name both yield `?`; a required argument with no further
token yields `:` (the option string starts with `:`).  The
`has_arg := none` case models an option record whose `has_arg` was
left uninitialized by `appendToLongOptions`; the behaviour there is
one arbitrary resolution of the undefined read. -/
def processLong (argv : List String) (longopts : List LongOption) (st : GetoptState)
    (arg : String) : GetoptRes × GetoptState :=
  let body := arg.data.drop 2
  let nameChars := body.takeWhile (fun c => c != '=')
  let attached : Option String :=
    if nameChars.length < body.length then some (String.mk (body.drop (nameChars.length + 1)))
    else none
  let st1 : GetoptState := { optind := st.optind + 1, nextchar := 0 }
  match findLongIndex longopts (String.mk nameChars) with
  | none => (GetoptRes.unknownOpt arg, st1)
  | some idx =>
    match (longopts.getD idx { name := "", has_arg := none }).has_arg with
    | some 1 =>
      match attached with
      | some v => (GetoptRes.longOpt idx (some v), st1)
      | none =>
        if st1.optind < argv.length then
          (GetoptRes.longOpt idx (some (argv.getD st1.optind "")),
           { optind := st1.optind + 1, nextchar := 0 })
        else
          (GetoptRes.missingArg arg, st1)
    | some 2 => (GetoptRes.longOpt idx attached, st1)
    | _ =>
      match attached with
      | some _ => (GetoptRes.unknownOpt arg, st1)
      | none => (GetoptRes.longOpt idx none, st1)

/-- Modelled from the spec: the short-option step of the POSIX getopt
tokenizer (`getopt_long` from libc, not part of this repository), per
the syntax contract of the spec: `-x`, `-x VALUE` or `-xVALUE` for a
required argument, attached `-xVALUE` only for an optional argument.
Entered with `nextchar ≥ 1` pointing at the option character inside
the current cluster. -/
def processShort (argv : List String) (shortopts : String) (st : GetoptState) :
    GetoptRes × GetoptState :=
  let cs := (argv.getD st.optind "").data
  let c := cs.getD st.nextchar ' '
  let rest := cs.drop (st.nextchar + 1)
  let stAdv : GetoptState :=
    if rest.isEmpty then { optind := st.optind + 1, nextchar := 0 }
    else { optind := st.optind, nextchar := st.nextchar + 1 }
  match shortoptArity shortopts c with
  | none => (GetoptRes.unknownOpt (String.mk [c]), stAdv)
  | some 1 =>
    if rest.isEmpty = false then
      (GetoptRes.shortOpt c (some (String.mk rest)), { optind := st.optind + 1, nextchar := 0 })
    else if st.optind + 1 < argv.length then
      (GetoptRes.shortOpt c (some (argv.getD (st.optind + 1) "")),
       { optind := st.optind + 2, nextchar := 0 })
    else
      (GetoptRes.missingArg (argv.getD st.optind ""), { optind := st.optind + 1, nextchar := 0 })
  | some 2 =>
    if rest.isEmpty = false then
      (GetoptRes.shortOpt c (some (String.mk rest)), { optind := st.optind + 1, nextchar := 0 })
    else
      (GetoptRes.shortOpt c none, stAdv)
  | some _ => (GetoptRes.shortOpt c none, stAdv)

/-- Modelled from the spec: one `getopt_long` call (libc, not part of
this repository) in the configuration `parseCLI` sets up — option
string starting `"+:"`, so scanning never permutes and stops at the
first positional token (`done` leaves `optind` on it), and `"--"` is
consumed as an end-of-options marker. -/
def getoptStep (argv : List String) (shortopts : String) (longopts : List LongOption)
    (st : GetoptState) : GetoptRes × GetoptState :=
  if st.nextchar ≠ 0 then processShort argv shortopts st
  else if argv.length ≤ st.optind then (GetoptRes.done, st)
  else if argv.getD st.optind "" = "--" then
    (GetoptRes.done, { optind := st.optind + 1, nextchar := 0 })
  else if isOptionToken (argv.getD st.optind "") = false then (GetoptRes.done, st)
  else if (argv.getD st.optind "").data.take 2 = ['-', '-'] then
    processLong argv longopts st (argv.getD st.optind "")
  else processShort argv shortopts { optind := st.optind, nextchar := 1 }

/-- The `optarg` normalization in `parseCLI` (src/unnamed/part_000
lines 286-289): `if (optarg && strlen(optarg)) arg = optarg` — a
present but empty argument string is treated as absent. -/
def normalizeArg : Option String → Option String
  | some s => if s.length ≠ 0 then some s else none
  | none => none

/-- The `while (true)` scan loop of `parseCLI` (src/unnamed/part_000
lines 240-297), with an explicit fuel argument bounding the number of
tokenizer steps (each step advances the scan position, so any fuel of
at least the total `argv` character count is enough).  On `-1` the
loop exits and `parseCLI` returns `optind`; on `?` and `:` a
diagnostic is recorded and scanning continues; on a match the option
is resolved — a short option through `shortOptIndex`, a long option by
using `option_index` directly as an index into `allOpts` — the
argument is normalized, `Value::set` runs on the registry copy, and
its boolean result is discarded. -/
def parseLoop {σ : Type} (argv : List String) (shortopts : String)
    (longopts : List LongOption) (shortIdx : List (Char × Nat)) :
    Nat → List (CommandOption σ) → σ → List String → GetoptState →
    Nat × σ × List String
  | 0, _, s, diags, st => (st.optind, s, diags)
  | fuel + 1, allOpts, s, diags, st =>
    match getoptStep argv shortopts longopts st with
    | (GetoptRes.done, st1) => (st1.optind, s, diags)
    | (GetoptRes.unknownOpt d, st1) =>
      parseLoop argv shortopts longopts shortIdx fuel allOpts s
        (diags ++ ["Unknown option " ++ d]) st1
    | (GetoptRes.missingArg d, st1) =>
      parseLoop argv shortopts longopts shortIdx fuel allOpts s
        (diags ++ ["Missing argument for " ++ d]) st1
    | (GetoptRes.shortOpt c optarg, st1) =>
      match List.lookup c shortIdx with
      | none => parseLoop argv shortopts longopts shortIdx fuel allOpts s diags st1
      | some i =>
        match allOpts[i]? with
        | none => parseLoop argv shortopts longopts shortIdx fuel allOpts s diags st1
        | some o =>
          let r := o.value.set o (normalizeArg optarg) s
          parseLoop argv shortopts longopts shortIdx fuel
            (allOpts.set i { o with value := r.2.1 }) r.2.2.1 (diags ++ r.2.2.2) st1
    | (GetoptRes.longOpt i optarg, st1) =>
      match allOpts[i]? with
      | none => parseLoop argv shortopts longopts shortIdx fuel allOpts s diags st1
      | some o =>
        let r := o.value.set o (normalizeArg optarg) s
        parseLoop argv shortopts longopts shortIdx fuel
          (allOpts.set i { o with value := r.2.1 }) r.2.2.1 (diags ++ r.2.2.2) st1

/-- Fuel that strictly bounds the number of tokenizer steps for a
given `argv` (every step either terminates the loop or advances
`(optind, nextchar)` within these bounds). -/
def fuelFor (argv : List String) : Nat :=
  argv.foldl (fun a t => a + t.length + 2) 2

/-- Models `parseCLI` (src/unnamed/part_000 lines 190-299): build the
registry (throwing `Exception` on configuration errors before any
token is examined), reset the scan state, run the scan loop, and
return `optind` — here together with the final caller state and the
diagnostics printed to `cerr`.  The registry works on copies of the
options of the caller (`allOpts.push_back(currOpt)` copies), so the
caller-supplied groups are never modified. -/
def parseCLI {σ : Type} (argv : List String) (options : List (CommandGroup σ)) (s : σ) :
    Except Exception (Nat × σ × List String) :=
  match buildRegistry options with
  | Except.error e => Except.error e
  | Except.ok reg =>
    Except.ok (parseLoop argv reg.shortopts reg.longopts reg.shortOptIndex
      (fuelFor argv) reg.allOpts s [] { optind := 1, nextchar := 0 })

/-- Decidable equality for `Except` results. -/
instance {ε α : Type} [DecidableEq ε] [DecidableEq α] : DecidableEq (Except ε α)
  | Except.error e1, Except.error e2 =>
    if h : e1 = e2 then Decidable.isTrue (by rw [h])
    else Decidable.isFalse (by intro he; cases he; exact h rfl)
  | Except.error _, Except.ok _ => Decidable.isFalse (by intro h; cases h)
  | Except.ok _, Except.error _ => Decidable.isFalse (by intro h; cases h)
  | Except.ok a1, Except.ok a2 =>
    if h : a1 = a2 then Decidable.isTrue (by rw [h])
    else Decidable.isFalse (by intro he; cases he; exact h rfl)

/-- The caller-owned target variables of the example program
(src/main.cpp lines 6-10), gathered into one state record.  The
initial string contents are irrelevant to every property below. -/
structure ProgState where
  myStringVar : String
  optionalVar : String
  stringVec : List String
  myFlag : Bool
  myInt : Int
deriving DecidableEq

/-- The pre-parse state of the example program (src/main.cpp lines
6-10). -/
def progInit : ProgState :=
  { myStringVar := "I was untouched", optionalVar := "initial", stringVec := [],
    myFlag := false, myInt := 10 }

/-- The grouped option definitions of the example program
(src/main.cpp lines 12-23): `--int` `-i` (required), `--bool` `-b`
(no argument), `--string` `-s` (required), `--ostring` `-o` (optional,
repeatable, default `"Seen, i was seen"`), `--cstring` `-c` (required,
repeatable, appends to a list). -/
def mainOptions : List (CommandGroup ProgState) :=
  [{ name := "Default", options := [
      { name := some "int", shortName := some 'i', flags := CommandOption.RequiredArgument,
        value := IntType (fun v s => { s with myInt := v }) (some 10),
        help := "Set the Int value." },
      { name := some "bool", shortName := some 'b', flags := CommandOption.NoArgument,
        value := BoolType (fun v s => { s with myFlag := v }) StoreFlag.StoreTrue (some false),
        help := "Enable the bool switch." }] },
   { name := "Extended", options := [
      { name := some "string", shortName := some 's', flags := CommandOption.RequiredArgument,
        value := StringType (fun v s => { s with myStringVar := v })
          (some "I was untouched") "STRING",
        help := "Set the String value." },
      { name := some "ostring", shortName := some 'o',
        flags := CommandOption.OptionalArgument ||| CommandOption.Repeatable,
        value := StringType (fun v s => { s with optionalVar := v })
          (some "Seen, i was seen") "STRING",
        help := "Set the optional String value." },
      { name := some "cstring", shortName := some 'c',
        flags := CommandOption.RequiredArgument ||| CommandOption.Repeatable,
        value := StringContainerType ProgState.stringVec
          (fun v s => { s with stringVec := v }) "STRING",
        help := "Add value to list of strings." }] }]

/-- A single-group configuration holding one plain (non-repeatable)
`StringType` option `--string` `-s`, bound to `myStringVar`. -/
def strGroups : List (CommandGroup ProgState) :=
  [{ name := "G", options := [
      { name := some "string", shortName := some 's', flags := CommandOption.RequiredArgument,
        value := StringType (fun v s => { s with myStringVar := v })
          (some "I was untouched") "STRING",
        help := "Set the String value." }] }]

/-- The same configuration as `strGroups` with the `Repeatable` flag
added to the option. -/
def repStrGroups : List (CommandGroup ProgState) :=
  [{ name := "G", options := [
      { name := some "string", shortName := some 's',
        flags := CommandOption.RequiredArgument ||| CommandOption.Repeatable,
        value := StringType (fun v s => { s with myStringVar := v })
          (some "I was untouched") "STRING",
        help := "Set the String value." }] }]

/-- A grouped configuration is structurally bad when two options share
a long name, two options share a short character, or one option has
both `RequiredArgument` and `OptionalArgument` set — the three
conditions `parseCLI` rejects during registry construction
(src/unnamed/part_000 lines 212-228). -/
def badConfig {σ : Type} (groups : List (CommandGroup σ)) : Prop :=
  (∃ n : String,
      2 ≤ ((flattenGroups groups).filter (fun o => decide (o.name = some n))).length) ∨
  (∃ c : Char,
      2 ≤ ((flattenGroups groups).filter (fun o => decide (o.shortName = some c))).length) ∨
  (∃ o ∈ flattenGroups groups, conflictFlags o.flags)

/-- Two groups whose options share the long name `"x"` — a structurally
bad configuration. -/
def dupLongGroups : List (CommandGroup ProgState) :=
  [{ name := "A", options := [
      { name := some "x", shortName := some 'a', flags := CommandOption.NoArgument,
        value := BoolType (fun v s => { s with myFlag := v }) StoreFlag.StoreTrue none,
        help := "" }] },
   { name := "B", options := [
      { name := some "x", shortName := some 'b', flags := CommandOption.NoArgument,
        value := BoolType (fun v s => { s with myFlag := v }) StoreFlag.StoreTrue none,
        help := "" }] }]

/-- One option whose flags value 4 lies inside `ArgumentTypeMask` but
matches none of the three declared arities. -/
def weirdGroups : List (CommandGroup ProgState) :=
  [{ name := "W", options := [
      { name := some "weird", shortName := none, flags := 4,
        value := BoolType (fun v s => { s with myFlag := v }) StoreFlag.StoreTrue none,
        help := "" }] }]

/-- A `Value` that was already consumed once, with a setter that
plainly succeeds. -/
def usedValue : Value ProgState :=
  { wasSet := true, defaultVal := none, setter := fun _ _ s => (true, s, []), argHint := "" }

/-- A non-repeatable option wrapping `usedValue`. -/
def usedOpt : CommandOption ProgState :=
  { name := some "x", shortName := none, flags := CommandOption.RequiredArgument,
    value := usedValue, help := "" }

/-- A fresh `Value` with no default value. -/
def noDefValue : Value ProgState :=
  { wasSet := false, defaultVal := none, setter := fun _ _ s => (true, s, []), argHint := "" }

/-- An `OptionalArgument` option wrapping `noDefValue`. -/
def optArgOpt : CommandOption ProgState :=
  { name := some "y", shortName := none, flags := CommandOption.OptionalArgument,
    value := noDefValue, help := "" }

/-- A non-repeatable `RequiredArgument` option wrapping `noDefValue`. -/
def reqArgOpt : CommandOption ProgState :=
  { name := some "y", shortName := none, flags := CommandOption.RequiredArgument,
    value := noDefValue, help := "" }

/-- A fresh string-typed `Value` with default `"D"`. -/
def defStrValue : Value ProgState :=
  StringType (fun v s => { s with optionalVar := v }) (some "D") "S"

/-- An `OptionalArgument` option wrapping `defStrValue`. -/
def defStrOpt : CommandOption ProgState :=
  { name := some "o", shortName := none, flags := CommandOption.OptionalArgument,
    value := defStrValue, help := "" }

theorem registerOption_conflict {σ : Type} (opt : CommandOption σ) (reg : Registry σ)
    (h : conflictFlags opt.flags) :
    registerOption opt reg =
      Except.error { what := "Argument can either be Required or Optional" } := by
  unfold registerOption
  rw [if_pos h]

theorem registerOption_dupLong {σ : Type} (opt : CommandOption σ) (reg : Registry σ)
    (n : String) (h1 : opt.name = some n) (h2 : n ∈ longKeys reg) :
    ∃ e, registerOption opt reg = Except.error e := by
  unfold registerOption
  by_cases hc : conflictFlags opt.flags
  · exact ⟨_, by rw [if_pos hc]⟩
  · rw [if_neg hc]
    have h3 : n ∈ longKeys { reg with allOpts := reg.allOpts ++ [opt] } := h2
    simp only [registerLong, h1, if_pos h3]
    exact ⟨_, rfl⟩

theorem registerShort_frame {σ : Type} (opt : CommandOption σ) (reg reg2 : Registry σ)
    (h : registerShort opt reg = Except.ok reg2) :
    reg2.longOptIndex = reg.longOptIndex ∧
      (∀ c, c ∈ shortKeys reg → c ∈ shortKeys reg2) ∧
      (∀ c, opt.shortName = some c → c ∈ shortKeys reg2) := by
  cases hm : opt.shortName with
  | none =>
    simp only [registerShort, hm] at h
    cases h
    exact ⟨rfl, fun c hc => hc, fun c hc => by cases hc⟩
  | some c0 =>
    simp only [registerShort, hm] at h
    by_cases hd : c0 ∈ shortKeys reg
    · rw [if_pos hd] at h; cases h
    · rw [if_neg hd] at h
      cases h
      refine ⟨rfl, ?_, ?_⟩
      · intro c hc
        simp only [shortKeys, List.map_append]
        exact List.mem_append_left _ hc
      · intro c hc
        cases hc
        simp only [shortKeys, List.map_append]
        exact List.mem_append_right _ (by simp)

theorem registerLong_frame {σ : Type} (opt : CommandOption σ) (reg reg2 : Registry σ)
    (h : registerLong opt reg = Except.ok reg2) :
    reg2.shortOptIndex = reg.shortOptIndex ∧
      (∀ n, n ∈ longKeys reg → n ∈ longKeys reg2) ∧
      (∀ n, opt.name = some n → n ∈ longKeys reg2) := by
  cases hm : opt.name with
  | none =>
    simp only [registerLong, hm] at h
    cases h
    exact ⟨rfl, fun n hn => hn, fun n hn => by cases hn⟩
  | some n0 =>
    simp only [registerLong, hm] at h
    by_cases hd : n0 ∈ longKeys reg
    · rw [if_pos hd] at h; cases h
    · rw [if_neg hd] at h
      cases h
      refine ⟨rfl, ?_, ?_⟩
      · intro n hn
        simp only [longKeys, List.map_append]
        exact List.mem_append_left _ hn
      · intro n hn
        cases hn
        simp only [longKeys, List.map_append]
        exact List.mem_append_right _ (by simp)

theorem registerOption_keys {σ : Type} (opt : CommandOption σ) (reg reg2 : Registry σ)
    (h : registerOption opt reg = Except.ok reg2) :
    (∀ n, n ∈ longKeys reg → n ∈ longKeys reg2) ∧
      (∀ n, opt.name = some n → n ∈ longKeys reg2) ∧
      (∀ c, c ∈ shortKeys reg → c ∈ shortKeys reg2) ∧
      (∀ c, opt.shortName = some c → c ∈ shortKeys reg2) := by
  unfold registerOption at h
  by_cases hc : conflictFlags opt.flags
  · rw [if_pos hc] at h; cases h
  · rw [if_neg hc] at h
    cases hl : registerLong opt { reg with allOpts := reg.allOpts ++ [opt] } with
    | error e => rw [hl] at h; cases h
    | ok regL =>
      rw [hl] at h
      obtain ⟨hsi, hlk, hln⟩ :=
        registerLong_frame opt { reg with allOpts := reg.allOpts ++ [opt] } regL hl
      obtain ⟨hli, hsk, hsn⟩ := registerShort_frame opt regL reg2 h
      have hkeep : ∀ n, n ∈ longKeys regL → n ∈ longKeys reg2 := by
        intro n hn
        simp only [longKeys, hli] at *
        exact hn
      refine ⟨fun n hn => hkeep n (hlk n hn), fun n hn => hkeep n (hln n hn), ?_, ?_⟩
      · intro c hc2
        have : c ∈ shortKeys regL := by
          simp only [shortKeys, hsi] at *
          exact hc2
        exact hsk c this
      · exact hsn

theorem buildAux_conflict {σ : Type} :
    ∀ (opts : List (CommandOption σ)) (reg : Registry σ),
      (∃ o ∈ opts, conflictFlags o.flags) →
      ∃ e, buildRegistryAux opts reg = Except.error e := by
  intro opts
  induction opts with
  | nil => intro reg h; rcases h with ⟨o, ho, _⟩; cases ho
  | cons o rest ih =>
    intro reg h
    rcases h with ⟨o2, ho2, hc⟩
    rcases List.mem_cons.mp ho2 with he | hrest
    · subst he
      exact ⟨_, by unfold buildRegistryAux; rw [registerOption_conflict o2 reg hc]⟩
    · cases hro : registerOption o reg with
      | error e => exact ⟨e, by unfold buildRegistryAux; rw [hro]⟩
      | ok reg2 =>
        rcases ih reg2 ⟨o2, hrest, hc⟩ with ⟨e, he⟩
        exact ⟨e, by unfold buildRegistryAux; rw [hro]; exact he⟩

theorem buildAux_longMem {σ : Type} :
    ∀ (opts : List (CommandOption σ)) (reg : Registry σ) (n : String),
      n ∈ longKeys reg → (∃ o ∈ opts, o.name = some n) →
      ∃ e, buildRegistryAux opts reg = Except.error e := by
  intro opts
  induction opts with
  | nil => intro reg n _ h; rcases h with ⟨o, ho, _⟩; cases ho
  | cons o rest ih =>
    intro reg n hk h
    rcases h with ⟨o2, ho2, hname⟩
    rcases List.mem_cons.mp ho2 with he | hrest
    · subst he
      rcases registerOption_dupLong o2 reg n hname hk with ⟨e, he⟩
      exact ⟨e, by unfold buildRegistryAux; rw [he]⟩
    · cases hro : registerOption o reg with
      | error e => exact ⟨e, by unfold buildRegistryAux; rw [hro]⟩
      | ok reg2 =>
        have hk2 := (registerOption_keys o reg reg2 hro).1 n hk
        rcases ih reg2 n hk2 ⟨o2, hrest, hname⟩ with ⟨e, he⟩
        exact ⟨e, by unfold buildRegistryAux; rw [hro]; exact he⟩

theorem buildAux_twoLong {σ : Type} :
    ∀ (opts : List (CommandOption σ)) (reg : Registry σ) (n : String),
      2 ≤ (opts.filter (fun o => decide (o.name = some n))).length →
      ∃ e, buildRegistryAux opts reg = Except.error e := by
  intro opts
  induction opts with
  | nil => intro reg n h; simp at h
  | cons o rest ih =>
    intro reg n h
    by_cases hp : o.name = some n
    · have hflt : 1 ≤ (rest.filter (fun o => decide (o.name = some n))).length := by
        simp [List.filter_cons, hp] at h
        omega
      have hne : rest.filter (fun o => decide (o.name = some n)) ≠ [] := by
        intro hnil
        rw [hnil] at hflt
        simp at hflt
      rcases List.exists_mem_of_ne_nil _ hne with ⟨o2, ho2⟩
      have hmf := List.mem_filter.mp ho2
      have hname : o2.name = some n := of_decide_eq_true hmf.2
      cases hro : registerOption o reg with
      | error e => exact ⟨e, by unfold buildRegistryAux; rw [hro]⟩
      | ok reg2 =>
        have hk2 := (registerOption_keys o reg reg2 hro).2.1 n hp
        rcases buildAux_longMem rest reg2 n hk2 ⟨o2, hmf.1, hname⟩ with ⟨e, he⟩
        exact ⟨e, by unfold buildRegistryAux; rw [hro]; exact he⟩
    · have h2 : 2 ≤ (rest.filter (fun o => decide (o.name = some n))).length := by
        simp [List.filter_cons, hp] at h
        exact h
      cases hro : registerOption o reg with
      | error e => exact ⟨e, by unfold buildRegistryAux; rw [hro]⟩
      | ok reg2 =>
        rcases ih reg2 n h2 with ⟨e, he⟩
        exact ⟨e, by unfold buildRegistryAux; rw [hro]; exact he⟩

theorem registerOption_dupShort {σ : Type} (opt : CommandOption σ) (reg : Registry σ)
    (c : Char) (h1 : opt.shortName = some c) (h2 : c ∈ shortKeys reg) :
    ∃ e, registerOption opt reg = Except.error e := by
  unfold registerOption
  by_cases hc : conflictFlags opt.flags
  · exact ⟨_, by rw [if_pos hc]⟩
  · rw [if_neg hc]
    cases hl : registerLong opt { reg with allOpts := reg.allOpts ++ [opt] } with
    | error e => exact ⟨e, rfl⟩
    | ok regL =>
      have hsi := (registerLong_frame opt _ regL hl).1
      have h3 : c ∈ shortKeys regL := by
        simp only [shortKeys, hsi]
        exact h2
      simp only [registerShort, h1, if_pos h3]
      exact ⟨_, rfl⟩

theorem buildAux_shortMem {σ : Type} :
    ∀ (opts : List (CommandOption σ)) (reg : Registry σ) (c : Char),
      c ∈ shortKeys reg → (∃ o ∈ opts, o.shortName = some c) →
      ∃ e, buildRegistryAux opts reg = Except.error e := by
  intro opts
  induction opts with
  | nil => intro reg c _ h; rcases h with ⟨o, ho, _⟩; cases ho
  | cons o rest ih =>
    intro reg c hk h
    rcases h with ⟨o2, ho2, hname⟩
    rcases List.mem_cons.mp ho2 with he | hrest
    · subst he
      rcases registerOption_dupShort o2 reg c hname hk with ⟨e, he⟩
      exact ⟨e, by unfold buildRegistryAux; rw [he]⟩
    · cases hro : registerOption o reg with
      | error e => exact ⟨e, by unfold buildRegistryAux; rw [hro]⟩
      | ok reg2 =>
        have hk2 := (registerOption_keys o reg reg2 hro).2.2.1 c hk
        rcases ih reg2 c hk2 ⟨o2, hrest, hname⟩ with ⟨e, he⟩
        exact ⟨e, by unfold buildRegistryAux; rw [hro]; exact he⟩

theorem buildAux_twoShort {σ : Type} :
    ∀ (opts : List (CommandOption σ)) (reg : Registry σ) (c : Char),
      2 ≤ (opts.filter (fun o => decide (o.shortName = some c))).length →
      ∃ e, buildRegistryAux opts reg = Except.error e := by
  intro opts
  induction opts with
  | nil => intro reg c h; simp at h
  | cons o rest ih =>
    intro reg c h
    by_cases hp : o.shortName = some c
    · have hflt : 1 ≤ (rest.filter (fun o => decide (o.shortName = some c))).length := by
        simp [List.filter_cons, hp] at h
        omega
      have hne : rest.filter (fun o => decide (o.shortName = some c)) ≠ [] := by
        intro hnil
        rw [hnil] at hflt
        simp at hflt
      rcases List.exists_mem_of_ne_nil _ hne with ⟨o2, ho2⟩
      have hmf := List.mem_filter.mp ho2
      have hname : o2.shortName = some c := of_decide_eq_true hmf.2
      cases hro : registerOption o reg with
      | error e => exact ⟨e, by unfold buildRegistryAux; rw [hro]⟩
      | ok reg2 =>
        have hk2 := (registerOption_keys o reg reg2 hro).2.2.2 c hp
        rcases buildAux_shortMem rest reg2 c hk2 ⟨o2, hmf.1, hname⟩ with ⟨e, he⟩
        exact ⟨e, by unfold buildRegistryAux; rw [hro]; exact he⟩
    · have h2 : 2 ≤ (rest.filter (fun o => decide (o.shortName = some c))).length := by
        simp [List.filter_cons, hp] at h
        exact h
      cases hro : registerOption o reg with
      | error e => exact ⟨e, by unfold buildRegistryAux; rw [hro]⟩
      | ok reg2 =>
        rcases ih reg2 c h2 with ⟨e, he⟩
        exact ⟨e, by unfold buildRegistryAux; rw [hro]; exact he⟩

theorem set_repeat_helper {σ : Type} (v : Value σ) (opt : CommandOption σ)
    (arg : Option String) (s : σ) (h1 : v.wasSet = true)
    (h2 : opt.flags &&& CommandOption.Repeatable = 0) :
    v.set opt arg s =
      (false, v, s, ["Option " ++ opt.name.getD "" ++ " can only be used once"]) := by
  unfold Value.set
  rw [if_pos ⟨h1, h2⟩]

theorem set_optional_none_helper {σ : Type} (v : Value σ) (opt : CommandOption σ) (s : σ)
    (hw : v.wasSet = false) (ho : opt.flags &&& CommandOption.OptionalArgument ≠ 0)
    (hd : v.defaultVal = none) :
    v.set opt none s = (false, { v with wasSet := true }, s, []) := by
  unfold Value.set
  rw [if_neg (by simp [hw]), if_pos ⟨rfl, ho⟩]
  simp [hd]

theorem set_optional_some_helper {σ : Type} (v : Value σ) (opt : CommandOption σ) (s : σ)
    (d : String) (hw : v.wasSet = false)
    (ho : opt.flags &&& CommandOption.OptionalArgument ≠ 0) (hd : v.defaultVal = some d) :
    v.set opt none s =
      ((v.setter opt.name (some d) s).1, { v with wasSet := true },
       (v.setter opt.name (some d) s).2.1, (v.setter opt.name (some d) s).2.2) := by
  unfold Value.set
  rw [if_neg (by simp [hw]), if_pos ⟨rfl, ho⟩]
  simp [hd]

theorem set_marks_helper {σ : Type} (v : Value σ) (opt : CommandOption σ)
    (arg : Option String) (s : σ)
    (h : ¬(v.wasSet = true ∧ opt.flags &&& CommandOption.Repeatable = 0)) :
    (v.set opt arg s).2.1.wasSet = true := by
  unfold Value.set
  rw [if_neg h]
  split
  · rcases hdv : v.defaultVal with _ | d <;> simp [hdv]
  · split
    · rfl
    · rfl

/-- C1: `parseCLI` stops option scanning at the first `argv` token not
recognized as an option and returns its index (options are not
permuted past positionals; with no further option-looking tokens the
index is one past the recognized options).  General part: whenever the
scan loop stands at the start of a token that does not look like an
option, it terminates immediately and returns the current index,
leaving the state and diagnostics untouched.  Concrete part: parsing
`-i 3 positional -b` against the example registry returns the index of
`positional` (3), sets the int target, and leaves the boolean target
at its pre-parse value with the trailing `-b` unconsumed. -/
theorem parse_stops_at_first_positional :
    (∀ (argv : List String) (so : String) (lo : List LongOption)
       (si : List (Char × Nat)) (allOpts : List (CommandOption ProgState))
       (s : ProgState) (diags : List String) (st : GetoptState) (fuel : Nat),
       st.nextchar = 0 → st.optind < argv.length →
       isOptionToken (argv.getD st.optind "") = false →
       parseLoop argv so lo si (fuel + 1) allOpts s diags st = (st.optind, s, diags)) ∧
    parseCLI ["prog", "-i", "3", "positional", "-b"] mainOptions progInit =
      Except.ok (3, { progInit with myInt := 3 }, []) := by
  constructor
  · intro argv so lo si allOpts s diags st fuel h1 h2 h3
    have hne : argv.getD st.optind "" ≠ "--" := by
      intro he
      rw [he] at h3
      simp [isOptionToken] at h3
    have hstep : getoptStep argv so lo st = (GetoptRes.done, st) := by
      unfold getoptStep
      rw [if_neg (by simp [h1]), if_neg (Nat.not_le.mpr h2), if_neg hne, if_pos h3]
    unfold parseLoop
    rw [hstep]
  · decide

theorem parse_stops_at_first_positional_witness :
    parseLoop ["p", "x"] "+:" ([] : List LongOption) ([] : List (Char × Nat)) 5
      ([] : List (CommandOption ProgState)) progInit [] { optind := 1, nextchar := 0 } =
      (1, progInit, []) :=
  parse_stops_at_first_positional.1 ["p", "x"] "+:" [] [] [] progInit []
    { optind := 1, nextchar := 0 } 4 rfl (by decide) (by decide)

/-- C2: for a non-`Repeatable` option, a second `Value::set` on the
same `Value` returns false with a diagnostic and does not invoke the
setter (the state and the `Value` are returned unchanged), so the
target keeps the first value; a `Repeatable` option accepts both
occurrences.  Concretely, `--string=a --string=b` against a plain
`StringType` option leaves the target `"a"` with a diagnostic, and
against the `Repeatable` variant yields `"b"` with no diagnostic. -/
theorem value_set_rejects_repeat :
    (∀ (σ : Type) (v : Value σ) (opt : CommandOption σ) (arg : Option String) (s : σ),
       v.wasSet = true → opt.flags &&& CommandOption.Repeatable = 0 →
       v.set opt arg s =
         (false, v, s, ["Option " ++ opt.name.getD "" ++ " can only be used once"])) ∧
    parseCLI ["prog", "--string=a", "--string=b"] strGroups progInit =
      Except.ok (3, { progInit with myStringVar := "a" },
        ["Option string can only be used once"]) ∧
    parseCLI ["prog", "--string=a", "--string=b"] repStrGroups progInit =
      Except.ok (3, { progInit with myStringVar := "b" }, []) :=
  ⟨fun _ v opt arg s h1 h2 => set_repeat_helper v opt arg s h1 h2, by decide, by decide⟩

theorem value_set_rejects_repeat_witness :
    usedValue.set usedOpt none progInit =
      (false, usedValue, progInit, ["Option x can only be used once"]) :=
  value_set_rejects_repeat.1 ProgState usedValue usedOpt none progInit rfl (by decide)

/-- C3: a grouped configuration with two options sharing a long name,
two options sharing a short character, or one option carrying both
`RequiredArgument` and `OptionalArgument`, makes `parseCLI` fail with
a configuration-error exception whose value is independent of the
`argv` input and of the caller state — the error arises during
registry construction, before any token is examined and before any
target is mutated (the error result carries no state). -/
theorem parseCLI_config_error {σ : Type} (groups : List (CommandGroup σ))
    (h : badConfig groups) :
    ∃ e, ∀ (argv : List String) (s : σ), parseCLI argv groups s = Except.error e := by
  have hb : ∃ e, buildRegistry groups = Except.error e := by
    rcases h with ⟨n, hn⟩ | ⟨c, hc⟩ | hcf
    · exact buildAux_twoLong (flattenGroups groups) (emptyRegistry σ) n hn
    · exact buildAux_twoShort (flattenGroups groups) (emptyRegistry σ) c hc
    · exact buildAux_conflict (flattenGroups groups) (emptyRegistry σ) hcf
  rcases hb with ⟨e, he⟩
  refine ⟨e, fun argv s => ?_⟩
  unfold parseCLI
  rw [he]

theorem parseCLI_config_error_witness :
    parseCLI ["p"] dupLongGroups progInit =
      parseCLI ["q", "-a", "positional"] dupLongGroups progInit := by
  rcases parseCLI_config_error dupLongGroups (Or.inl ⟨"x", by decide⟩) with ⟨e, he⟩
  rw [he ["p"] progInit, he ["q", "-a", "positional"] progInit]

/-- C4: `Value::set` with no argument on an `OptionalArgument` option
consults the default-value provider: a missing default yields false
without invoking the setter (state unchanged); a present default is
passed to the setter, whose result is returned.  Concretely,
`--ostring` with no attached value against the example registry stores
the default `"Seen, i was seen"` into the target. -/
theorem value_set_optional_default :
    (∀ (σ : Type) (v : Value σ) (opt : CommandOption σ) (s : σ),
       v.wasSet = false → opt.flags &&& CommandOption.OptionalArgument ≠ 0 →
       (v.defaultVal = none → v.set opt none s = (false, { v with wasSet := true }, s, [])) ∧
       (∀ d, v.defaultVal = some d →
          v.set opt none s =
            ((v.setter opt.name (some d) s).1, { v with wasSet := true },
             (v.setter opt.name (some d) s).2.1, (v.setter opt.name (some d) s).2.2))) ∧
    parseCLI ["prog", "--ostring"] mainOptions progInit =
      Except.ok (2, { progInit with optionalVar := "Seen, i was seen" }, []) :=
  ⟨fun _ v opt s hw ho =>
    ⟨fun hd => set_optional_none_helper v opt s hw ho hd,
     fun d hd => set_optional_some_helper v opt s d hw ho hd⟩,
   by decide⟩

theorem value_set_optional_default_witness :
    defStrValue.set defStrOpt none progInit =
      (true, { defStrValue with wasSet := true }, { progInit with optionalVar := "D" }, []) :=
  (value_set_optional_default.1 ProgState defStrValue defStrOpt progInit rfl
    (by decide)).2 "D" rfl

/-- C5: the `IntType` setter parses its argument with base-10
`std::stoi`; on any string on which `stoi` fails (malformed or out of
the `int` range) it returns false, emits one diagnostic, and leaves
the state unchanged.  Concretely, `--int notanumber` leaves the
integer target at 10, emits the invalid-argument diagnostic, and still
returns index 3, past both tokens. -/
theorem inttype_rejects_malformed :
    (∀ (σ : Type) (setT : Int → σ → σ) (defv : Option Int) (nm : Option String)
       (str : String) (s : σ) (e : StoiError), stoi str = Except.error e →
       (IntType setT defv).setter nm (some str) s =
         (false, s,
          [if e = StoiError.invalidArgument then "Argument: " ++ nm.getD "" ++ " is invalid."
           else "Argument: " ++ nm.getD "" ++ " is out of range."])) ∧
    stoi "notanumber" = Except.error StoiError.invalidArgument ∧
    parseCLI ["prog", "--int", "notanumber"] mainOptions progInit =
      Except.ok (3, progInit, ["Argument: int is invalid."]) := by
  refine ⟨?_, by decide, by decide⟩
  intro σ setT defv nm str s e he
  cases e with
  | invalidArgument => simp [IntType, he]
  | outOfRange => simp [IntType, he]

theorem inttype_rejects_malformed_witness :
    (IntType (fun v s => { s with myInt := v }) (some 10)).setter (some "int")
      (some "xx") progInit = (false, progInit, ["Argument: int is invalid."]) := by
  simpa using inttype_rejects_malformed.1 ProgState (fun v s => { s with myInt := v })
    (some 10) (some "int") "xx" progInit StoiError.invalidArgument (by decide)

/-- C6: every `Value::set` call that passes the repeatability check
returns a `Value` with `wasSet = true`, including calls that fail
afterwards; consequently, on a fresh `Value` of an `OptionalArgument`
option with no default, a first call with no argument fails, yet a
second call against any non-`Repeatable` option fails the
repeatability check and emits its diagnostic. -/
theorem value_set_marks_wasSet :
    (∀ (σ : Type) (v : Value σ) (opt : CommandOption σ) (arg : Option String) (s : σ),
       ¬(v.wasSet = true ∧ opt.flags &&& CommandOption.Repeatable = 0) →
       (v.set opt arg s).2.1.wasSet = true) ∧
    (∀ (σ : Type) (v : Value σ) (opt opt2 : CommandOption σ) (arg2 : Option String)
       (s s2 : σ),
       v.wasSet = false → opt.flags &&& CommandOption.OptionalArgument ≠ 0 →
       v.defaultVal = none → opt2.flags &&& CommandOption.Repeatable = 0 →
       (v.set opt none s).1 = false ∧
       ((v.set opt none s).2.1.set opt2 arg2 s2).1 = false ∧
       ((v.set opt none s).2.1.set opt2 arg2 s2).2.2.2 ≠ []) := by
  constructor
  · exact fun _ v opt arg s h => set_marks_helper v opt arg s h
  · intro σ v opt opt2 arg2 s s2 hw ho hd h2
    rw [set_optional_none_helper v opt s hw ho hd]
    rw [set_repeat_helper { v with wasSet := true } opt2 arg2 s2 rfl h2]
    exact ⟨rfl, rfl, by simp⟩

theorem value_set_marks_wasSet_witness :
    (noDefValue.set optArgOpt none progInit).1 = false ∧
      ((noDefValue.set optArgOpt none progInit).2.1.set reqArgOpt none progInit).1 = false ∧
      ((noDefValue.set optArgOpt none progInit).2.1.set reqArgOpt none
        progInit).2.2.2 ≠ [] :=
  value_set_marks_wasSet.2 ProgState noDefValue optArgOpt reqArgOpt none progInit progInit
    rfl (by decide) rfl (by decide)

/-- C7: the scan loop normalizes a present attached argument of zero
length to an absent argument before invoking `Value::set`
(`--name=` on an `OptionalArgument` option hence takes the
default-value path) and discards the boolean result of `set`: the
caller observes only targets and index.  Concretely, `--ostring=`
stores the default, and `--string=` (whose `set` call fails, required
argument normalized away) still returns an ok result with index 2 and
an unchanged state — no error is surfaced. -/
theorem parse_normalizes_empty_attached :
    normalizeArg (some "") = none ∧
    (∀ str : String, str.length ≠ 0 → normalizeArg (some str) = some str) ∧
    parseCLI ["prog", "--ostring="] mainOptions progInit =
      Except.ok (2, { progInit with optionalVar := "Seen, i was seen" }, []) ∧
    parseCLI ["prog", "--string="] mainOptions progInit =
      Except.ok (2, progInit, []) := by
  refine ⟨by decide, ?_, by decide, by decide⟩
  intro str h
  simp [normalizeArg, h]

theorem parse_normalizes_empty_attached_witness :
    normalizeArg (some "ab") = some "ab" :=
  parse_normalizes_empty_attached.2.1 "ab" (by decide)

/-- C8: determinism across runs — two `parseCLI` invocations on the
same grouped definitions with equal fresh initial states yield
identical results (final target values and returned index).  Each
invocation builds its own registry from `groups`; in the source the
process-wide getopt state is reset at lines 237-238 of
src/unnamed/part_000, which makes each run a function of its
arguments, and the embedding reflects exactly that. -/
theorem parseCLI_deterministic (groups : List (CommandGroup ProgState))
    (argv : List String) (s1 s2 : ProgState) (h : s1 = s2) :
    parseCLI argv groups s1 = parseCLI argv groups s2 := by
  rw [h]

theorem parseCLI_deterministic_witness :
    parseCLI ["prog", "-b"] mainOptions progInit = parseCLI ["prog", "-b"] mainOptions progInit :=
  parseCLI_deterministic mainOptions ["prog", "-b"] progInit progInit rfl

/-- C9: `parseCLI` never modifies the caller-supplied definitions: the
registry copies each `CommandOption` (src/unnamed/part_000 line 208)
and all `wasSet` mutation happens on the copies, which the embedding
renders by `parseCLI` reading `groups` immutably — so repeat-use state
does not carry over between calls: for any prior state, a second parse
on the same definitions sets a plain non-repeatable option again, with
no repeat diagnostic. -/
theorem parseCLI_no_carryover (s : ProgState) :
    parseCLI ["prog", "--string=a"] strGroups s =
      Except.ok (2, { s with myStringVar := "a" }, []) ∧
    parseCLI ["prog", "--string=b"] strGroups { s with myStringVar := "a" } =
      Except.ok (2, { s with myStringVar := "b" }, []) := by
  constructor
  · rfl
  · rfl

theorem parseCLI_no_carryover_witness :
    parseCLI ["prog", "--string=a"] strGroups progInit =
      Except.ok (2, { progInit with myStringVar := "a" }, []) ∧
    parseCLI ["prog", "--string=b"] strGroups { progInit with myStringVar := "a" } =
      Except.ok (2, { progInit with myStringVar := "b" }, []) :=
  parseCLI_no_carryover progInit

/-- C10: the `appendToLongOptions` mapping to the getopt `has_arg` field is
defined exactly for the three mask values `NoArgument`,
`RequiredArgument`, `OptionalArgument`, while registry validation
rejects only the `RequiredArgument` and `OptionalArgument`
combination: a mask value such as 4 passes validation and reaches the
read of the uninitialized `has_arg` variable (recorded as `none` in
the long-option array the registry builds). -/
theorem has_arg_uninitialized_gap :
    (∀ flags : Nat,
       flags &&& CommandOption.ArgumentTypeMask = CommandOption.NoArgument ∨
       flags &&& CommandOption.ArgumentTypeMask = CommandOption.RequiredArgument ∨
       flags &&& CommandOption.ArgumentTypeMask = CommandOption.OptionalArgument →
       (hasArgFor flags).isSome = true) ∧
    hasArgFor 4 = none ∧
    ¬conflictFlags 4 ∧
    registryLongopts (buildRegistry weirdGroups) =
      some [{ name := "weird", has_arg := none }] := by
  refine ⟨?_, by decide, by decide, by decide⟩
  intro flags h
  rcases h with h | h | h <;>
    simp [hasArgFor, h, CommandOption.NoArgument, CommandOption.RequiredArgument,
      CommandOption.OptionalArgument]

theorem has_arg_uninitialized_gap_witness :
    (hasArgFor 1).isSome = true :=
  has_arg_uninitialized_gap.1 1 (Or.inr (Or.inl (by decide)))

end GnuFlag
